import Mathlib

/-!
Verification development for the yelp_search repository.

The repository has two source versions of the business-search pipeline:
the notebook src/yelp_search.ipynb (the authoritative version, embedded in
namespace Yelp) and the variant src/unnamed/part_000 (embedded in namespace
Yelp.Part000).  Pure functions are translated to Lean functions; the HTTP
layer is an injected response function; Python exceptions are modelled with
Option/Except; Python ints are Int; BeautifulSoup trees are modelled by an
explicit node type with document-order (pre-order) traversal.
-/

namespace Yelp

/-- A Python value passed as a URL parameter: in the source these are either
strings (location, categories) or ints (offset, limit). -/
inductive Val where
  | str (s : String)
  | int (n : Int)
deriving DecidableEq

/-- Python dict of URL parameters, as an insertion-ordered association list. -/
abbrev Params := List (String × Val)

/-- HTTP headers dict. -/
abbrev Headers := List (String × String)

/-- The (url, headers, url_params) triple built for one request. -/
abbrev Request := String × Headers × Params

/-- Python dict assignment `d[k] = v`: overwrite in place if the key exists,
otherwise append (insertion order preserved). -/
def dictInsert (d : Params) (k : String) (v : Val) : Params :=
  if d.any (fun kv => kv.1 == k) then
    d.map (fun kv => if kv.1 == k then (k, v) else kv)
  else d ++ [(k, v)]

/-- The `for key, value in kwargs.items(): url_params[key] = value` loop. -/
def dictExtend (d : Params) (kwargs : List (String × Val)) : Params :=
  kwargs.foldl (fun acc kv => dictInsert acc kv.1 kv.2) d

/-- `location.replace(" ", "-")` from `location_search_params`
(src/yelp_search.ipynb section 5): each space becomes a dash. -/
def replaceSpaces (s : String) : String :=
  s.map (fun c => if c == ' ' then '-' else c)

/-- `location_search_params(api_key, location, **kwargs)` from
src/yelp_search.ipynb section 5: fixed search endpoint URL, a Bearer
authorization header, and url_params seeded with the dashed location and
extended with the keyword arguments. -/
def location_search_params (api_key location : String) (kwargs : List (String × Val)) :
    Request :=
  let url := "https://api.yelp.com/v3/businesses/search"
  let headers := [("Authorization", "Bearer " ++ api_key)]
  let url_params : Params := [("location", Val.str (replaceSpaces location))]
  (url, headers, dictExtend url_params kwargs)

/-- The JSON body of one search response, restricted to the two fields the
pipeline consumes (`total` and `businesses`); `β` is the opaque type of one
business record. -/
structure SearchResp (β : Type) where
  total : Int
  businesses : List β

/-- The request built by the probe call
`location_search_params(api_key, location, offset = 0)` at the top of
`all_restaurants` (src/yelp_search.ipynb section 8). -/
def probeReq (api_key location : String) : Request :=
  location_search_params api_key location [("offset", Val.int 0)]

/-- The request built in each iteration of the loop in
`paginated_restaurant_search_requests`:
`location_search_params(api_key, location, offset = offset_, limit = 20,
categories = "restaurants")` (src/yelp_search.ipynb section 7). -/
def pageReq (api_key location : String) (offset : Int) : Request :=
  location_search_params api_key location
    [("offset", Val.int offset), ("limit", Val.int 20), ("categories", Val.str "restaurants")]

/-- The `while offset_ < total` loop of `paginated_restaurant_search_requests`
(src/yelp_search.ipynb section 7), with the running offset as an argument. -/
def psrLoop (api_key location : String) (total offset_ : Int) : List Request :=
  if offset_ < total then
    pageReq api_key location offset_ :: psrLoop api_key location total (offset_ + 20)
  else
    []
termination_by (total - offset_).toNat
decreasing_by
  simp_wf
  omega

/-- `paginated_restaurant_search_requests(api_key, location, total)` from
src/yelp_search.ipynb section 7: page requests at offsets 0, 20, 40, ...
while the offset stays below `total`. -/
def paginated_restaurant_search_requests (api_key location : String) (total : Int) :
    List Request :=
  psrLoop api_key location total 0

/-- `all_restaurants(api_key, location)` from src/yelp_search.ipynb section 8.
`resp` is the injected HTTP layer (`requests.get` + `.json()`).  The first
component is the accumulated `businesses` arrays of the page responses; the
second component records the requests issued, in order: the probe request
first, then one request per element of `paginated_restaurant_search_requests`.
-/
def all_restaurants {β : Type} (resp : Request → SearchResp β) (api_key location : String) :
    List β × List Request :=
  let probe := location_search_params api_key location [("offset", Val.int 0)]
  let total_items := (resp probe).total
  let restaurant_pages := paginated_restaurant_search_requests api_key location total_items
  (restaurant_pages.foldl (fun result page => result ++ (resp page).businesses) [],
   probe :: restaurant_pages)

/-- The request built by `yelp_search(api_key, location, offset)`
(src/yelp_search.ipynb section 6).  The body calls
`location_search_params(api_key, location, offset=0)` with the literal 0,
so the `offset` parameter is never used. -/
def yelp_search_request (api_key location : String) (offset : Int) : Request :=
  location_search_params api_key location [("offset", Val.int 0)]

/-- `yelp_search(api_key, location, offset=0)` from src/yelp_search.ipynb
section 6: build the request, issue it, return `(total, businesses)`. -/
def yelp_search {β : Type} (resp : Request → SearchResp β) (api_key location : String)
    (offset : Int) : Int × List β :=
  let r := yelp_search_request api_key location offset
  ((resp r).total, (resp r).businesses)

namespace Part000

/-- The Python error raised by a bad call in the part_000 variant. -/
inductive CallErr where
  | typeError
deriving DecidableEq

/-- Python argument binding for a function with exactly two positional
parameters (named `n1`, `n2`) followed by `**kwargs`: positional arguments
bind the named parameters in order; a keyword argument matching a named
parameter fills it (or raises TypeError if it is already bound); leftover
keyword arguments form the `**kwargs` dict; more than two positional
arguments or a missing required parameter raises TypeError. -/
def bindCall2 (n1 n2 : String) (args : List Val) (kwargs : List (String × Val)) :
    Except CallErr (Val × Val × List (String × Val)) :=
  match args with
  | [a, b] =>
    if kwargs.any (fun kv => kv.1 == n1 || kv.1 == n2) then .error .typeError
    else .ok (a, b, kwargs)
  | [a] =>
    if kwargs.any (fun kv => kv.1 == n1) then .error .typeError
    else
      match kwargs.lookup n2 with
      | some v => .ok (a, v, kwargs.filter (fun kv => !(kv.1 == n2)))
      | none => .error .typeError
  | [] =>
    (match kwargs.lookup n1, kwargs.lookup n2 with
     | some v1, some v2 =>
       .ok (v1, v2, kwargs.filter (fun kv => !(kv.1 == n1) && !(kv.1 == n2)))
     | _, _ => .error .typeError)
  | _ => .error .typeError

/-- `get_url_params(url_addition, api_key, **kwargs)` from src/unnamed/part_000
(section 5 there), together with its Python calling convention: the call is
given as a list of positional arguments plus keyword arguments.  The body
concatenates the endpoint base with `url_addition` (a TypeError if it is not
a string), builds the Bearer header, and copies the keyword arguments into
`url_params`. -/
def get_url_params (args : List Val) (kwargs : List (String × Val)) :
    Except CallErr Request :=
  match bindCall2 "url_addition" "api_key" args kwargs with
  | .error e => .error e
  | .ok (ua, ak, kw) =>
    match ua, ak with
    | .str u, .str key =>
      .ok ("https://api.yelp.com/v3/businesses" ++ u,
           [("Authorization", "Bearer " ++ key)],
           dictExtend [] kw)
    | _, _ => .error .typeError

/-- The probe request that `all_restaurants` in part_000 builds with
`get_url_params('/search', api_key, location = loc, offset = 0)`. -/
def probeReq (api_key loc : String) : Request :=
  ("https://api.yelp.com/v3/businesses/search",
   [("Authorization", "Bearer " ++ api_key)],
   [("location", Val.str loc), ("offset", Val.int 0)])

/-- The `while current_offset < total` loop of part_000
`paginated_restaurant_search_requests`.  Each iteration calls
`get_url_params('/search', api_key, location, offset = current_offset,
limit = 20, categories = "restaurants")` — three positional arguments. -/
def psrLoop (api_key location : String) (total current_offset : Int) :
    Except CallErr (List Request) :=
  if current_offset < total then
    match get_url_params [Val.str "/search", Val.str api_key, Val.str location]
        [("offset", Val.int current_offset), ("limit", Val.int 20),
         ("categories", Val.str "restaurants")] with
    | .error e => .error e
    | .ok r =>
      match psrLoop api_key location total (current_offset + 20) with
      | .error e => .error e
      | .ok rest => .ok (r :: rest)
  else .ok []
termination_by (total - current_offset).toNat
decreasing_by
  simp_wf
  omega

/-- `paginated_restaurant_search_requests(api_key, location, total)` from
src/unnamed/part_000 (section 7 there). -/
def paginated_restaurant_search_requests (api_key location : String) (total : Int) :
    Except CallErr (List Request) :=
  psrLoop api_key location total 0

/-- `all_restaurants(api_key, loc)` from src/unnamed/part_000 (section 8
there): probe for `total`, then build the page-request list and accumulate
each page response's `businesses`. -/
def all_restaurants {β : Type} (resp : Request → SearchResp β) (api_key loc : String) :
    Except CallErr (List β) :=
  match get_url_params [Val.str "/search", Val.str api_key]
      [("location", Val.str loc), ("offset", Val.int 0)] with
  | .error e => .error e
  | .ok probe =>
    match paginated_restaurant_search_requests api_key loc (resp probe).total with
    | .error e => .error e
    | .ok pages => .ok (pages.foldl (fun result page => result ++ (resp page).businesses) [])

end Part000

/-! Helper lemmas for the pagination loop. -/

lemma psrLoop_eq (api_key location : String) :
    ∀ (n : Nat) (total offset_ : Int), (total - offset_).toNat = n →
    psrLoop api_key location total offset_ =
      (List.range ((n + 19) / 20)).map
        (fun i : Nat => pageReq api_key location (offset_ + 20 * (i : Int))) := by
  intro n
  induction n using Nat.strong_induction_on with
  | _ n ih =>
    intro total offset_ hn
    rw [psrLoop]
    by_cases h : offset_ < total
    · rw [if_pos h]
      rw [ih ((total - (offset_ + 20)).toNat) (by omega) total (offset_ + 20) rfl]
      have hdiv : (n + 19) / 20 = ((total - (offset_ + 20)).toNat + 19) / 20 + 1 := by
        omega
      rw [hdiv, List.range_succ_eq_map, List.map_cons, List.map_map]
      congr 1
      · norm_num
      · apply List.map_congr_left
        intro i _
        simp only [Function.comp_apply]
        congr 1
        push_cast
        ring
    · rw [if_neg h]
      have hn0 : n = 0 := by omega
      subst hn0
      norm_num

lemma paginated_eq (api_key location : String) (total : Int) :
    paginated_restaurant_search_requests api_key location total =
      (List.range ((total.toNat + 19) / 20)).map
        (fun i : Nat => pageReq api_key location (20 * (i : Int))) := by
  have h := psrLoop_eq api_key location (total - 0).toNat total 0 rfl
  simpa using h

lemma foldl_append_eq_flatten {α β : Type} (f : α → List β) :
    ∀ (pages : List α) (acc : List β),
      pages.foldl (fun r p => r ++ f p) acc = acc ++ (pages.map f).flatten := by
  intro pages
  induction pages with
  | nil => intro acc; simp
  | cons p ps ih =>
    intro acc
    simp only [List.foldl_cons, List.map_cons, List.flatten]
    rw [ih]
    simp [List.append_assoc]

/-- C1: For every non-negative integer total returned by the initial probe
request, `all_restaurants` issues exactly ceil(total/20) paged requests in
addition to the one probe request; the offsets used are 0, 20, 40, ...
strictly less than total; when total is 0, no paged request is issued and
the returned list is empty. -/
theorem all_restaurants_request_schedule {β : Type} (resp : Request → SearchResp β)
    (api_key location : String)
    (h : 0 ≤ (resp (probeReq api_key location)).total) :
    (all_restaurants resp api_key location).2 =
      probeReq api_key location ::
        (List.range (((resp (probeReq api_key location)).total.toNat + 19) / 20)).map
          (fun i : Nat => pageReq api_key location (20 * (i : Int))) ∧
    ((all_restaurants resp api_key location).2).length =
      1 + ((resp (probeReq api_key location)).total.toNat + 19) / 20 ∧
    (∀ i : Nat, 20 * (i : Int) < (resp (probeReq api_key location)).total ↔
      i < ((resp (probeReq api_key location)).total.toNat + 19) / 20) ∧
    ((resp (probeReq api_key location)).total = 0 →
      (all_restaurants resp api_key location).2 = [probeReq api_key location] ∧
      (all_restaurants resp api_key location).1 = []) := by
  refine ⟨?_, ?_, ?_, ?_⟩
  · simp only [all_restaurants, probeReq]
    rw [paginated_eq]
  · simp only [all_restaurants, probeReq]
    rw [paginated_eq]
    simp only [List.length_cons, List.length_map, List.length_range]
    omega
  · intro i
    omega
  · intro h0
    have hpages : paginated_restaurant_search_requests api_key location
        (resp (probeReq api_key location)).total = [] := by
      rw [paginated_eq, h0]
      norm_num
    constructor
    · simp only [all_restaurants, probeReq] at hpages ⊢
      rw [hpages]
    · simp only [all_restaurants, probeReq] at hpages ⊢
      rw [hpages]
      rfl

theorem all_restaurants_request_schedule_witness :
    (0 : Int) ≤ ((fun _ => SearchResp.mk 0 ([] : List String)) (probeReq "k" "chi")).total ∧
    ((all_restaurants (fun _ => SearchResp.mk 0 ([] : List String)) "k" "chi").2 =
        [probeReq "k" "chi"] ∧
      (all_restaurants (fun _ => SearchResp.mk 0 ([] : List String)) "k" "chi").1 = []) :=
  ⟨by norm_num,
   (all_restaurants_request_schedule (fun _ => SearchResp.mk 0 ([] : List String)) "k" "chi"
      (by norm_num)).2.2.2 rfl⟩

/-- C7: `all_restaurants` returns exactly the concatenation, in request order,
of the `businesses` arrays of the paged responses, without truncating or
padding to the probed total; its length is the sum of the page array lengths,
which can differ from the probed total. -/
theorem all_restaurants_concat_pages {β : Type} (resp : Request → SearchResp β)
    (api_key location : String) :
    (all_restaurants resp api_key location).1 =
      ((paginated_restaurant_search_requests api_key location
          (resp (probeReq api_key location)).total).map
        (fun page => (resp page).businesses)).flatten ∧
    ((all_restaurants resp api_key location).1).length =
      ((paginated_restaurant_search_requests api_key location
          (resp (probeReq api_key location)).total).map
        (fun page => ((resp page).businesses).length)).sum ∧
    (∃ resp' : Request → SearchResp β,
      (((all_restaurants resp' api_key location).1).length : Int) ≠
        (resp' (probeReq api_key location)).total) := by
  refine ⟨?_, ?_, ?_⟩
  · simp only [all_restaurants, probeReq]
    rw [foldl_append_eq_flatten]
    simp
  · simp only [all_restaurants, probeReq]
    rw [foldl_append_eq_flatten]
    simp [List.length_flatten, List.map_map, Function.comp_def]
  · refine ⟨fun _ => SearchResp.mk 1 [], ?_⟩
    have hres : (all_restaurants (fun _ => SearchResp.mk 1 ([] : List β))
        api_key location).1 = [] := by
      simp only [all_restaurants]
      rw [paginated_eq]
      norm_num
    rw [hres]
    norm_num

/-- C10: in the src/yelp_search.ipynb version, `yelp_search` ignores its
`offset` parameter: the request it builds, and its result under any fixed
response function, are identical to those for offset 0. -/
theorem yelp_search_ignores_offset {β : Type} (resp : Request → SearchResp β)
    (api_key location : String) (offset : Int) :
    yelp_search_request api_key location offset = yelp_search_request api_key location 0 ∧
    yelp_search resp api_key location offset = yelp_search resp api_key location 0 :=
  ⟨rfl, rfl⟩

/-- C8: in the src/unnamed/part_000 version, `paginated_restaurant_search_requests`
raises a TypeError whenever total is positive, because its loop body passes
three positional arguments to `get_url_params`, which accepts only two
positional parameters; hence that version of `all_restaurants` fails whenever
the probed total is positive and returns the empty list when it is 0. -/
theorem part000_all_restaurants_type_error {β : Type} (resp : Request → SearchResp β)
    (api_key loc : String) :
    (∀ kwargs, Part000.get_url_params [Val.str "/search", Val.str api_key, Val.str loc] kwargs
      = .error .typeError) ∧
    (∀ total : Int, 0 < total →
      Part000.paginated_restaurant_search_requests api_key loc total = .error .typeError) ∧
    (0 < (resp (Part000.probeReq api_key loc)).total →
      Part000.all_restaurants resp api_key loc = .error .typeError) ∧
    ((resp (Part000.probeReq api_key loc)).total = 0 →
      Part000.all_restaurants resp api_key loc = .ok []) := by
  have hthree : ∀ kwargs,
      Part000.get_url_params [Val.str "/search", Val.str api_key, Val.str loc] kwargs
        = .error .typeError := by
    intro kwargs
    rfl
  have hloop : ∀ total : Int, 0 < total →
      Part000.paginated_restaurant_search_requests api_key loc total = .error .typeError := by
    intro total htot
    unfold Part000.paginated_restaurant_search_requests
    rw [Part000.psrLoop]
    rw [if_pos htot]
    rw [hthree]
  have hprobe : Part000.get_url_params [Val.str "/search", Val.str api_key]
      [("location", Val.str loc), ("offset", Val.int 0)]
        = .ok (Part000.probeReq api_key loc) := rfl
  have hstep : Part000.all_restaurants resp api_key loc =
      (match Part000.paginated_restaurant_search_requests api_key loc
          (resp (Part000.probeReq api_key loc)).total with
       | .error e => .error e
       | .ok pages =>
         .ok (pages.foldl (fun result page => result ++ (resp page).businesses) [])) := rfl
  refine ⟨hthree, hloop, ?_, ?_⟩
  · intro htot
    rw [hstep, hloop _ htot]
  · intro htot
    have hempty : Part000.paginated_restaurant_search_requests api_key loc
        (resp (Part000.probeReq api_key loc)).total = .ok [] := by
      unfold Part000.paginated_restaurant_search_requests
      rw [Part000.psrLoop]
      rw [if_neg (by omega)]
    rw [hstep, hempty]
    rfl

theorem part000_all_restaurants_type_error_witness :
    Part000.all_restaurants (fun _ => SearchResp.mk 45 (["b"] : List String)) "k" "chi"
      = .error .typeError ∧
    Part000.all_restaurants (fun _ => SearchResp.mk 0 ([] : List String)) "k" "chi"
      = .ok [] :=
  ⟨(part000_all_restaurants_type_error (fun _ => SearchResp.mk 45 (["b"] : List String))
      "k" "chi").2.2.1 (by norm_num),
   (part000_all_restaurants_type_error (fun _ => SearchResp.mk 0 ([] : List String))
      "k" "chi").2.2.2 rfl⟩

/-! HTML side: the parsed tree a BeautifulSoup call produces, with
document-order (pre-order) traversal.  `find`/`find_all` search the strict
descendants of a node, `.text` concatenates all text descendants, and
attribute access is association-list lookup. -/

/-- One node of the parsed HTML tree: an element with tag name, attributes
and children, or a text fragment. -/
inductive Node where
  | elem (tag : String) (attrs : List (String × String)) (children : List Node)
  | text (s : String)

mutual
/-- All strict descendants of a node, in document order (pre-order):
the search space of BeautifulSoup `find` / `find_all`. -/
def Node.descendants : Node → List Node
  | .elem _ _ cs => descList cs
  | .text _ => []
/-- Pre-order listing of a forest: each root followed by its descendants. -/
def descList : List Node → List Node
  | [] => []
  | c :: cs => c :: (Node.descendants c ++ descList cs)
end

mutual
/-- BeautifulSoup `.text`: concatenation of every text fragment in the
subtree, in document order. -/
def nodeText : Node → String
  | .text s => s
  | .elem _ _ cs => textList cs
/-- `.text` of a forest. -/
def textList : List Node → String
  | [] => ""
  | c :: cs => nodeText c ++ textList cs
end

/-- `tag.get(key)` / `tag.attrs[key]` as an optional lookup. -/
def Node.attr : Node → String → Option String
  | .elem _ attrs _, k => attrs.lookup k
  | .text _, _ => none

/-- The matcher of `find(tag, key=val)`: an element with the given tag name
carrying the attribute with the given value. -/
def matchTagAttr (tag key val : String) : Node → Bool
  | .elem t attrs _ => t == tag && attrs.lookup key == some val
  | .text _ => false

/-- The matcher of `find(key=val)` (any tag). -/
def matchAttr (key val : String) : Node → Bool
  | .elem _ attrs _ => attrs.lookup key == some val
  | .text _ => false

/-- The matcher of `find(tag)` (tag name only). -/
def matchTag (tag : String) : Node → Bool
  | .elem t _ _ => t == tag
  | .text _ => false

/-- `find_all`: every descendant matching the predicate, in document order. -/
def soupFindAll (p : Node → Bool) (root : Node) : List Node :=
  (Node.descendants root).filter p

/-- `find`: the first descendant matching the predicate, if any. -/
def soupFind (p : Node → Bool) (root : Node) : Option Node :=
  (soupFindAll p root).head?

/-- Numeric value of a digit list. -/
def digitsToNat (ds : List Char) : Nat :=
  ds.foldl (fun a c => a * 10 + (c.toNat - 48)) 0

/-- A non-empty all-digit character list, or failure. -/
def parseDigits (cs : List Char) : Option Nat :=
  if !cs.isEmpty && cs.all Char.isDigit then some (digitsToNat cs) else none

/-- Optional leading sign of a Python float literal. -/
def parseSign : List Char → Int × List Char
  | '-' :: cs => (-1, cs)
  | '+' :: cs => (1, cs)
  | cs => (1, cs)

/-- Mantissa of a Python float literal: digits with an optional fraction
part (`"5"`, `"5.0"`, `".5"`, `"5."`); at least one digit overall.  The
value is built with `mkRat` so that it evaluates by kernel reduction. -/
def parseMantissa (cs : List Char) : Option Rat :=
  let ip := cs.takeWhile (fun c => !(c == '.'))
  let rest := cs.dropWhile (fun c => !(c == '.'))
  match rest with
  | [] => (parseDigits ip).map (fun n => mkRat n 1)
  | _ :: fp =>
    if ip.isEmpty && fp.isEmpty then none
    else if ip.all Char.isDigit && fp.all Char.isDigit then
      some (mkRat (digitsToNat ip) 1 + mkRat (digitsToNat fp) (10 ^ fp.length))
    else none

/-- Python `float(s)` on a decimal literal with optional sign, fraction and
exponent, modelled exactly over the rationals (`ValueError` is `none`).
Surrounding whitespace, `inf`/`nan` and digit underscores are not modelled;
the markup values the parser meets are plain decimals. -/
def pyFloat (s : String) : Option Rat :=
  let (sign, cs) := parseSign s.data
  let mant := cs.takeWhile (fun c => !(c == 'e') && !(c == 'E'))
  let erest := cs.dropWhile (fun c => !(c == 'e') && !(c == 'E'))
  match erest with
  | [] => (parseMantissa mant).map (fun q => mkRat sign 1 * q)
  | _ :: es =>
    let (esign, eds) := parseSign es
    match parseDigits eds, parseMantissa mant with
    | some e, some q =>
      some (mkRat sign 1 *
        (if esign = 1 then q * mkRat ((10 : Nat) ^ e) 1 else q * mkRat 1 ((10 : Nat) ^ e)))
    | _, _ => none

/-- One extracted review record (src/yelp_search.ipynb section 10). -/
structure Review where
  author : String
  rating : Rat
  date : String
  description : String
deriving DecidableEq

/-- The matcher of `soup.find_all('div', itemprop="review")`. -/
def reviewMatch : Node → Bool := matchTagAttr "div" "itemprop" "review"

/-- The matcher of `soup.find('link', rel='next')`. -/
def nextLinkMatch : Node → Bool := matchTagAttr "link" "rel" "next"

/-- The review units of a document: `soup.find_all('div', itemprop="review")`. -/
def reviewUnits (soup : Node) : List Node :=
  soupFindAll reviewMatch soup

/-- The continuation extraction at the top of `parse_page`:
`url_next = soup.find('link', rel='next')`, then `url_next.get('href')` if an
element was found, else `None`. -/
def continuationOf (soup : Node) : Option String :=
  match soupFind nextLinkMatch soup with
  | some tag => Node.attr tag "href"
  | none => none

/-- `r.find(itemprop='author')` followed by `.attrs['content']`
(`AttributeError`/`KeyError` is `none`). -/
def unitAuthor (r : Node) : Option String :=
  (soupFind (matchAttr "itemprop" "author") r).bind (fun a => Node.attr a "content")

/-- `r.find(itemprop='ratingValue')`, `.attrs['content']`, then `float(...)`. -/
def unitRating (r : Node) : Option Rat :=
  ((soupFind (matchAttr "itemprop" "ratingValue") r).bind
    (fun a => Node.attr a "content")).bind pyFloat

/-- `r.find(itemprop='datePublished')` followed by `.attrs['content']`. -/
def unitDate (r : Node) : Option String :=
  (soupFind (matchAttr "itemprop" "datePublished") r).bind (fun a => Node.attr a "content")

/-- `r.find('p').text` (`AttributeError` on a missing paragraph is `none`). -/
def unitDescription (r : Node) : Option String :=
  (soupFind (matchTag "p") r).map nodeText

/-- The body of the `for i in range(len(reviews))` loop of `parse_page` for
one review unit: any failing field access aborts with an exception (`none`). -/
def extractReview (r : Node) : Option Review :=
  match unitAuthor r, unitRating r, unitDate r, unitDescription r with
  | some author, some rating, some date, some description =>
    some ⟨author, rating, date, description⟩
  | _, _, _, _ => none

/-- The whole extraction loop of `parse_page`: records accumulate in
document order and the first exception aborts the call. -/
def extractAll : List Node → Option (List Review)
  | [] => some []
  | r :: rs =>
    match extractReview r with
    | none => none
    | some rev =>
      match extractAll rs with
      | none => none
      | some revs => some (rev :: revs)

/-- `parse_page(html)` from src/yelp_search.ipynb section 10, over the parsed
tree: continuation from the first `link rel=next`, then one record per
`div itemprop=review` unit; an exception anywhere yields no result at all. -/
def parse_page (soup : Node) : Option (List Review × Option String) :=
  let url_next := continuationOf soup
  match extractAll (reviewUnits soup) with
  | some reviews_list => some (reviews_list, url_next)
  | none => none

/-- A review unit that carries all four nested fields in extractable form:
author content, parseable rating content, date content, and a paragraph. -/
def wellFormedUnit (r : Node) : Bool :=
  (unitAuthor r).isSome && (unitRating r).isSome &&
  (unitDate r).isSome && (unitDescription r).isSome

/-- A review unit lacking one of the four nested fields named by the spec:
no author element, no rating-value element, no date-published element, or no
nested paragraph. -/
def missingField (r : Node) : Bool :=
  (soupFind (matchAttr "itemprop" "author") r).isNone ||
  (soupFind (matchAttr "itemprop" "ratingValue") r).isNone ||
  (soupFind (matchAttr "itemprop" "datePublished") r).isNone ||
  (soupFind (matchTag "p") r).isNone

/-- Field-by-field correspondence between a review unit and the record built
from it: the author content, the parsed rating content, the literal date
string, and the text of the first nested paragraph. -/
def UnitSpec (r : Node) (rev : Review) : Prop :=
  unitAuthor r = some rev.author ∧ unitRating r = some rev.rating ∧
  unitDate r = some rev.date ∧ unitDescription r = some rev.description

lemma extractReview_of_wellFormed (r : Node) (h : wellFormedUnit r = true) :
    ∃ rev, extractReview r = some rev ∧ UnitSpec r rev := by
  simp only [wellFormedUnit, Bool.and_eq_true, Option.isSome_iff_exists] at h
  obtain ⟨⟨⟨⟨a, ha⟩, ⟨q, hq⟩⟩, ⟨d, hd⟩⟩, ⟨p, hp⟩⟩ := h
  refine ⟨⟨a, q, d, p⟩, ?_, ha, hq, hd, hp⟩
  unfold extractReview
  rw [ha, hq, hd, hp]

lemma extractReview_eq_none (r : Node)
    (h : unitAuthor r = none ∨ unitRating r = none ∨
         unitDate r = none ∨ unitDescription r = none) :
    extractReview r = none := by
  unfold extractReview
  cases hA : unitAuthor r with
  | none => rfl
  | some a =>
    cases hR : unitRating r with
    | none => rfl
    | some q =>
      cases hD : unitDate r with
      | none => rfl
      | some d =>
        cases hP : unitDescription r with
        | none => rfl
        | some p =>
          simp [hA, hR, hD, hP] at h

lemma extractAll_of_wf :
    ∀ rs : List Node, (∀ r ∈ rs, wellFormedUnit r = true) →
    ∃ revs, extractAll rs = some revs ∧ List.Forall₂ UnitSpec rs revs := by
  intro rs
  induction rs with
  | nil => intro _; exact ⟨[], rfl, List.Forall₂.nil⟩
  | cons r rs ih =>
    intro h
    obtain ⟨rev, hrev, hspec⟩ := extractReview_of_wellFormed r (h r (by simp))
    obtain ⟨revs, hall, hf⟩ := ih (fun x hx => h x (by simp [hx]))
    exact ⟨rev :: revs, by simp [extractAll, hrev, hall], List.Forall₂.cons hspec hf⟩

lemma extractAll_none_of_mem :
    ∀ (rs : List Node) (r : Node), r ∈ rs → extractReview r = none →
      extractAll rs = none := by
  intro rs
  induction rs with
  | nil => intro r hr _; simp at hr
  | cons x xs ih =>
    intro r hr hnone
    rcases List.mem_cons.mp hr with heq | hmem
    · subst heq
      simp [extractAll, hnone]
    · cases hx : extractReview x with
      | none => simp [extractAll, hx]
      | some rev => simp [extractAll, hx, ih r hmem hnone]

/-- C3: on a document whose review units all carry the four nested fields,
`parse_page` returns exactly one record per unit, in document order, with
author/rating/date/description drawn from the unit as the spec describes
(rating parsed as a float, date the literal markup string); with zero review
units it returns the empty list paired with the continuation determined by
the next link. -/
theorem parse_page_wellformed_units (soup : Node)
    (h : ∀ r ∈ reviewUnits soup, wellFormedUnit r = true) :
    ∃ recs, parse_page soup = some (recs, continuationOf soup) ∧
      recs.length = (reviewUnits soup).length ∧
      List.Forall₂ UnitSpec (reviewUnits soup) recs ∧
      (reviewUnits soup = [] → parse_page soup = some ([], continuationOf soup)) := by
  obtain ⟨revs, hall, hf⟩ := extractAll_of_wf (reviewUnits soup) h
  refine ⟨revs, ?_, ?_, hf, ?_⟩
  · simp [parse_page, hall]
  · exact hf.length_eq.symm
  · intro hempty
    rw [hempty] at hall
    simp only [extractAll] at hall
    simp [parse_page, hempty, extractAll]

/-- C4: a document containing at least one review unit that lacks one of the
four nested fields makes the whole `parse_page` call fail: no record list is
returned at all, with no skip-and-continue of well-formed units. -/
theorem parse_page_missing_field_fatal (soup : Node)
    (h : ∃ r ∈ reviewUnits soup, missingField r = true) :
    parse_page soup = none := by
  obtain ⟨r, hmem, hmiss⟩ := h
  have hnone : extractReview r = none := by
    apply extractReview_eq_none
    simp only [missingField, Bool.or_eq_true, Option.isNone_iff_eq_none] at hmiss
    rcases hmiss with ((h1 | h1) | h1) | h1
    · exact Or.inl (by simp [unitAuthor, h1])
    · exact Or.inr (Or.inl (by simp [unitRating, h1]))
    · exact Or.inr (Or.inr (Or.inl (by simp [unitDate, h1])))
    · exact Or.inr (Or.inr (Or.inr (by simp [unitDescription, h1])))
  have hall : extractAll (reviewUnits soup) = none :=
    extractAll_none_of_mem (reviewUnits soup) r hmem hnone
  simp [parse_page, hall]

/-- C6: the continuation returned by `parse_page` is the target-URL attribute
of the first designated next-link element in document order when one is
present, and `None` when none is present; with several such elements the
first encountered wins. -/
theorem parse_page_continuation_next_link (soup : Node) :
    (soupFindAll nextLinkMatch soup = [] → continuationOf soup = none) ∧
    (∀ l ls, soupFindAll nextLinkMatch soup = l :: ls →
      continuationOf soup = Node.attr l "href") ∧
    (∀ out, parse_page soup = some out → out.2 = continuationOf soup) := by
  refine ⟨?_, ?_, ?_⟩
  · intro h
    simp [continuationOf, soupFind, h]
  · intro l ls h
    simp [continuationOf, soupFind, h]
  · intro out hout
    simp only [parse_page] at hout
    cases hall : extractAll (reviewUnits soup) with
    | none => rw [hall] at hout; simp at hout
    | some revs =>
      rw [hall] at hout
      simp only [Option.some_inj] at hout
      rw [← hout]

/-! Concrete fixture documents for the witnesses. -/

/-- A well-formed review unit as `parse_page` expects it. -/
def sampleReview : Node :=
  .elem "div" [("itemprop", "review")]
    [.elem "span" [("itemprop", "author"), ("content", "Betsy F.")] [],
     .elem "span" [("itemprop", "ratingValue"), ("content", "5.0")] [],
     .elem "span" [("itemprop", "datePublished"), ("content", "2016-10-01")] [],
     .elem "p" [] [.text "Authentic, incredible"]]

/-- The rating value `parse_page` computes for `sampleReview`:
`float("5.0")`, an exact 5. -/
def sampleRating : Rat := (pyFloat "5.0").getD 0

/-- The record `parse_page` builds from `sampleReview`. -/
def sampleReviewRec : Review :=
  ⟨"Betsy F.", sampleRating, "2016-10-01", "Authentic, incredible"⟩

/-- A review unit with no date-published element (and no rating/paragraph). -/
def badReview : Node :=
  .elem "div" [("itemprop", "review")]
    [.elem "span" [("itemprop", "author"), ("content", "A")] []]

/-- A document with a next link and two well-formed review units. -/
def docTwoReviews : Node :=
  .elem "[document]" []
    [.elem "link" [("rel", "next"), ("href", "page2")] [],
     sampleReview, sampleReview]

/-- A document with one well-formed and one malformed review unit. -/
def docWithBad : Node :=
  .elem "[document]" [] [sampleReview, badReview]

/-- A document with two next links, in document order. -/
def docTwoLinks : Node :=
  .elem "[document]" []
    [.elem "link" [("rel", "next"), ("href", "page2")] [],
     .elem "link" [("rel", "next"), ("href", "page3")] []]

theorem parse_page_wellformed_units_witness :
    (∀ r ∈ reviewUnits docTwoReviews, wellFormedUnit r = true) ∧
    (∃ recs, parse_page docTwoReviews = some (recs, continuationOf docTwoReviews) ∧
      recs.length = (reviewUnits docTwoReviews).length ∧
      List.Forall₂ UnitSpec (reviewUnits docTwoReviews) recs ∧
      (reviewUnits docTwoReviews = [] →
        parse_page docTwoReviews = some ([], continuationOf docTwoReviews))) :=
  ⟨by decide, parse_page_wellformed_units docTwoReviews (by decide)⟩

theorem parse_page_missing_field_fatal_witness :
    (∃ r ∈ reviewUnits docWithBad, missingField r = true) ∧
    parse_page docWithBad = none :=
  ⟨by decide, parse_page_missing_field_fatal docWithBad (by decide)⟩

theorem parse_page_continuation_next_link_witness :
    continuationOf docTwoLinks =
      Node.attr (.elem "link" [("rel", "next"), ("href", "page2")] []) "href" ∧
    Node.attr (Node.elem "link" [("rel", "next"), ("href", "page2")] []) "href" =
      some "page2" :=
  ⟨(parse_page_continuation_next_link docTwoLinks).2.1
      (.elem "link" [("rel", "next"), ("href", "page2")] [])
      [.elem "link" [("rel", "next"), ("href", "page3")] []] rfl,
   rfl⟩

/-! The review paginator `extract_reviews` (src/yelp_search.ipynb section 11).
The injected `html_fetcher` returns a `(status, html)` pair; the html is the
parsed tree.  The Python `while` loop becomes fuel-indexed recursion: `ok`
is normal completion, `parseError` a propagated parse exception, `outOfFuel`
the loop still running when the fuel is spent.  The `fetched` list records
each call to `html_fetcher`, in order. -/

/-- Outcome of a run of `extract_reviews`, with the trace of fetched URLs. -/
inductive ExtractResult where
  | ok (reviews : List Review) (fetched : List String)
  | parseError (fetched : List String)
  | outOfFuel (fetched : List String)
deriving DecidableEq

/-- Discriminator: did the run exhaust its fuel (the loop was still going)? -/
def ExtractResult.isOutOfFuel : ExtractResult → Bool
  | .outOfFuel _ => true
  | _ => false

/-- The `while (next_url != None)` loop of `extract_reviews`: fetch the
continuation, parse, append the records, replace the pointer. -/
def extractLoop (html_fetcher : String → Int × Node) :
    Nat → Option String → List Review → List String → ExtractResult
  | _, none, reviews, fetched => .ok reviews fetched
  | 0, some _, _, fetched => .outOfFuel fetched
  | fuel + 1, some next_url, reviews, fetched =>
    match parse_page (html_fetcher next_url).2 with
    | none => .parseError (fetched ++ [next_url])
    | some (reviews_temp, next_url_temp) =>
      extractLoop html_fetcher fuel next_url_temp (reviews ++ reviews_temp)
        (fetched ++ [next_url])

/-- `extract_reviews(url, html_fetcher)` from src/yelp_search.ipynb
section 11: fetch and parse the start URL, then follow continuation
pointers until none remains (or the fuel runs out). -/
def extract_reviews (url : String) (html_fetcher : String → Int × Node)
    (fuel : Nat) : ExtractResult :=
  match parse_page (html_fetcher url).2 with
  | none => .parseError [url]
  | some (reviews, next_url) => extractLoop html_fetcher fuel next_url reviews [url]

/-- The finite chain of pages reached from `u` by following continuation
pointers: each page parses to its record list and the pointer to the next,
and the last page has continuation `None`.  `urls` lists the reached pages
in fetch order and `pss` their record lists. -/
inductive PageChain (html_fetcher : String → Int × Node) :
    String → List String → List (List Review) → Prop
  | last {u rs} : parse_page (html_fetcher u).2 = some (rs, none) →
      PageChain html_fetcher u [u] [rs]
  | step {u v rs urls pss} : parse_page (html_fetcher u).2 = some (rs, some v) →
      PageChain html_fetcher v urls pss →
      PageChain html_fetcher u (u :: urls) (rs :: pss)

lemma extractLoop_of_chain (f : String → Int × Node) {u : String}
    {urls : List String} {pss : List (List Review)}
    (h : PageChain f u urls pss) :
    ∀ fuel, urls.length ≤ fuel → ∀ acc tr,
      extractLoop f fuel (some u) acc tr = .ok (acc ++ pss.flatten) (tr ++ urls) := by
  induction h with
  | @last u rs hp =>
    intro fuel hfuel acc tr
    cases fuel with
    | zero => simp at hfuel
    | succ n =>
      simp only [extractLoop, hp]
      simp [extractLoop]
  | @step u v rs urls pss hp hchain ih =>
    intro fuel hfuel acc tr
    cases fuel with
    | zero => simp at hfuel
    | succ n =>
      simp only [extractLoop, hp]
      rw [ih n (by simp at hfuel; omega) (acc ++ rs) (tr ++ [u])]
      simp

lemma extract_reviews_chain_spec (f : String → Int × Node) {u : String}
    {urls : List String} {pss : List (List Review)}
    (h : PageChain f u urls pss) :
    extract_reviews u f urls.length = .ok pss.flatten urls := by
  cases h with
  | last hp =>
    simp only [extract_reviews, hp]
    simp [extractLoop]
  | @step u v rs urls₀ pss₀ hp hchain =>
    simp only [extract_reviews, hp, List.length_cons]
    rw [extractLoop_of_chain f hchain (urls₀.length + 1) (by omega) rs [u]]
    simp

/-- C2: for every injected fetch function, `extract_reviews` returns the
concatenation, in fetch order, of the record lists of every page reached by
following continuation pointers from the start URL, and fetches exactly the
reached pages, once each, stopping once a continuation is `None`. -/
theorem extract_reviews_follows_chain (f : String → Int × Node) {u : String}
    {urls : List String} {pss : List (List Review)}
    (h : PageChain f u urls pss) :
    extract_reviews u f urls.length = .ok pss.flatten urls :=
  extract_reviews_chain_spec f h

/-! Fixture: a three-page chain with 20, 20 and 5 reviews. -/

/-- Fixture page 1: 20 reviews and a next pointer to `p2`. -/
def fixPage1 : Node :=
  .elem "[document]" []
    (Node.elem "link" [("rel", "next"), ("href", "p2")] [] ::
      List.replicate 20 sampleReview)

/-- Fixture page 2: 20 reviews and a next pointer to `p3`. -/
def fixPage2 : Node :=
  .elem "[document]" []
    (Node.elem "link" [("rel", "next"), ("href", "p3")] [] ::
      List.replicate 20 sampleReview)

/-- Fixture page 3: 5 reviews and no next pointer. -/
def fixPage3 : Node :=
  .elem "[document]" [] (List.replicate 5 sampleReview)

/-- The fixture fetch function for the three-page chain. -/
def fixFetch : String → Int × Node :=
  fun u => if u == "p2" then (200, fixPage2)
    else if u == "p3" then (200, fixPage3)
    else (200, fixPage1)

theorem extract_reviews_follows_chain_witness :
    extract_reviews "p1" fixFetch 3 =
      .ok ([List.replicate 20 sampleReviewRec, List.replicate 20 sampleReviewRec,
            List.replicate 5 sampleReviewRec].flatten) ["p1", "p2", "p3"] ∧
    ([List.replicate 20 sampleReviewRec, List.replicate 20 sampleReviewRec,
      List.replicate 5 sampleReviewRec].flatten).length = 45 ∧
    (["p1", "p2", "p3"] : List String).length = 3 :=
  have h1 : parse_page (fixFetch "p1").2 =
      some (List.replicate 20 sampleReviewRec, some "p2") := rfl
  have h2 : parse_page (fixFetch "p2").2 =
      some (List.replicate 20 sampleReviewRec, some "p3") := rfl
  have h3 : parse_page (fixFetch "p3").2 =
      some (List.replicate 5 sampleReviewRec, none) := rfl
  ⟨extract_reviews_follows_chain fixFetch
      (PageChain.step h1 (PageChain.step h2 (PageChain.last h3))),
   by decide, rfl⟩

/-! Termination of the continuation-following loop. -/

/-- Every page the fetch function can return parses successfully. -/
def AllPagesParse (f : String → Int × Node) : Prop :=
  ∀ u, (parse_page (f u).2).isSome = true

/-- The loop finishes for some fuel (normally or by a propagated parse
exception) instead of still running when any amount of fuel is spent. -/
def Terminates (f : String → Int × Node) (url : String) : Prop :=
  ∃ fuel, (extract_reviews url f fuel).isOutOfFuel = false

/-- The continuation chain from `url` reaches `None` in finitely many steps. -/
def ChainEnds (f : String → Int × Node) (url : String) : Prop :=
  ∃ urls pss, PageChain f url urls pss

/-- A page whose continuation pointer leads back to the same URL. -/
def cycPage : Node :=
  .elem "[document]" [] [.elem "link" [("rel", "next"), ("href", "loop")] []]

/-- A fetch function whose pages form a cycle: every URL yields a page
pointing at `loop`, which yields the same page again. -/
def cycFetch : String → Int × Node := fun _ => (200, cycPage)

lemma chain_of_extractLoop (f : String → Int × Node) :
    ∀ (fuel : Nat) (next : Option String) (acc : List Review) (tr : List String)
      (rs : List Review) (tr' : List String),
      extractLoop f fuel next acc tr = .ok rs tr' →
      ∀ v, next = some v → ChainEnds f v := by
  intro fuel
  induction fuel with
  | zero =>
    intro next acc tr rs tr' h v hv
    subst hv
    simp [extractLoop] at h
  | succ n ih =>
    intro next acc tr rs tr' h v hv
    subst hv
    cases hp : parse_page (f v).2 with
    | none => simp [extractLoop, hp] at h
    | some out =>
      obtain ⟨rvs, nx⟩ := out
      simp only [extractLoop, hp] at h
      cases nx with
      | none => exact ⟨[v], [rvs], PageChain.last hp⟩
      | some w =>
        obtain ⟨urls, pss, hc⟩ := ih (some w) (acc ++ rvs) (tr ++ [v]) rs tr' h w rfl
        exact ⟨v :: urls, rvs :: pss, PageChain.step hp hc⟩

lemma chain_of_extract_ok (f : String → Int × Node) {url : String} {fuel : Nat}
    {rs : List Review} {tr : List String}
    (h : extract_reviews url f fuel = .ok rs tr) : ChainEnds f url := by
  cases hp : parse_page (f url).2 with
  | none => simp [extract_reviews, hp] at h
  | some out =>
    obtain ⟨rvs, nx⟩ := out
    simp only [extract_reviews, hp] at h
    cases nx with
    | none => exact ⟨[url], [rvs], PageChain.last hp⟩
    | some v =>
      obtain ⟨urls, pss, hc⟩ := chain_of_extractLoop f fuel (some v) rvs [url] rs tr h v rfl
      exact ⟨url :: urls, rvs :: pss, PageChain.step hp hc⟩

lemma extractLoop_no_parseError (f : String → Int × Node) (hf : AllPagesParse f) :
    ∀ (fuel : Nat) (next : Option String) (acc : List Review) (tr tr' : List String),
      extractLoop f fuel next acc tr ≠ .parseError tr' := by
  intro fuel
  induction fuel with
  | zero =>
    intro next acc tr tr' h
    cases next <;> simp [extractLoop] at h
  | succ n ih =>
    intro next acc tr tr' h
    cases next with
    | none => simp [extractLoop] at h
    | some v =>
      cases hp : parse_page (f v).2 with
      | none =>
        have := hf v
        rw [hp] at this
        simp at this
      | some out =>
        obtain ⟨rvs, nx⟩ := out
        simp only [extractLoop, hp] at h
        exact ih nx (acc ++ rvs) (tr ++ [v]) tr' h

lemma extract_reviews_no_parseError (f : String → Int × Node) (hf : AllPagesParse f)
    (url : String) (fuel : Nat) (tr : List String) :
    extract_reviews url f fuel ≠ .parseError tr := by
  intro h
  cases hp : parse_page (f url).2 with
  | none =>
    have := hf url
    rw [hp] at this
    simp at this
  | some out =>
    obtain ⟨rvs, nx⟩ := out
    simp only [extract_reviews, hp] at h
    exact extractLoop_no_parseError f hf fuel nx rvs [url] tr h

lemma cyc_loop_outOfFuel :
    ∀ (fuel : Nat) (acc : List Review) (tr : List String), ∃ tr',
      extractLoop cycFetch fuel (some "loop") acc tr = .outOfFuel tr' := by
  intro fuel
  induction fuel with
  | zero => intro acc tr; exact ⟨tr, rfl⟩
  | succ n ih =>
    intro acc tr
    have hp : parse_page (cycFetch "loop").2 = some ([], some "loop") := rfl
    simp only [extractLoop, hp]
    exact ih (acc ++ []) (tr ++ ["loop"])

/-- C5: `extract_reviews` terminates exactly when the continuation chain from
the start URL reaches `None` after finitely many steps; a fetch function
whose continuation pointers form a cycle makes the loop run forever, since
no visited set or page cap bounds it. -/
theorem extract_reviews_termination_iff_chain :
    (∀ (f : String → Int × Node) (url : String), AllPagesParse f →
      (Terminates f url ↔ ChainEnds f url)) ∧
    AllPagesParse cycFetch ∧ ¬ Terminates cycFetch "start" := by
  refine ⟨?_, ?_, ?_⟩
  · intro f url hf
    constructor
    · intro hT
      obtain ⟨fuel, hfuel⟩ := hT
      cases hres : extract_reviews url f fuel with
      | ok rs tr => exact chain_of_extract_ok f hres
      | parseError tr => exact absurd hres (extract_reviews_no_parseError f hf url fuel tr)
      | outOfFuel tr =>
        rw [hres] at hfuel
        simp [ExtractResult.isOutOfFuel] at hfuel
    · intro hC
      obtain ⟨urls, pss, hc⟩ := hC
      refine ⟨urls.length, ?_⟩
      rw [extract_reviews_chain_spec f hc]
      rfl
  · intro u
    rfl
  · intro hT
    obtain ⟨fuel, hfuel⟩ := hT
    have hstart : parse_page (cycFetch "start").2 = some ([], some "loop") := rfl
    obtain ⟨tr', hloop⟩ := cyc_loop_outOfFuel fuel [] ["start"]
    rw [show extract_reviews "start" cycFetch fuel =
        extractLoop cycFetch fuel (some "loop") [] ["start"] from by
          simp only [extract_reviews, hstart]] at hfuel
    rw [hloop] at hfuel
    simp [ExtractResult.isOutOfFuel] at hfuel

/-- A trivial single-page fetch function: no reviews, no continuation. -/
def emptyPage : Node := .elem "[document]" [] []

/-- Fetch returning the empty page with status 200. -/
def fetch200 : String → Int × Node := fun _ => (200, emptyPage)

/-- Fetch returning the empty page with status 404. -/
def fetch404 : String → Int × Node := fun _ => (404, emptyPage)

theorem extract_reviews_termination_iff_chain_witness :
    AllPagesParse fetch200 ∧ (Terminates fetch200 "start" ↔ ChainEnds fetch200 "start") :=
  ⟨fun _ => rfl,
   extract_reviews_termination_iff_chain.1 fetch200 "start" (fun _ => rfl)⟩

lemma extractLoop_status_free (f g : String → Int × Node)
    (h : ∀ u, (f u).2 = (g u).2) :
    ∀ (fuel : Nat) (next : Option String) (acc : List Review) (tr : List String),
      extractLoop f fuel next acc tr = extractLoop g fuel next acc tr := by
  intro fuel
  induction fuel with
  | zero => intro next acc tr; cases next <;> rfl
  | succ n ih =>
    intro next acc tr
    cases next with
    | none => rfl
    | some v =>
      simp only [extractLoop]
      rw [h v]
      cases parse_page (g v).2 with
      | none => rfl
      | some out =>
        obtain ⟨rvs, nx⟩ := out
        exact ih nx (acc ++ rvs) (tr ++ [v])

/-- C9: the result of `extract_reviews` depends only on the html component of
each fetch result, never on the status component: two fetch functions
agreeing on html for every URL, with arbitrarily different status codes,
yield the same result. -/
theorem extract_reviews_status_independent (f g : String → Int × Node)
    (h : ∀ u, (f u).2 = (g u).2) (url : String) (fuel : Nat) :
    extract_reviews url f fuel = extract_reviews url g fuel := by
  simp only [extract_reviews]
  rw [h url]
  cases parse_page (g url).2 with
  | none => rfl
  | some out =>
    obtain ⟨rvs, nx⟩ := out
    exact extractLoop_status_free f g h fuel nx rvs [url]

theorem extract_reviews_status_independent_witness :
    (∀ u, (fetch200 u).2 = (fetch404 u).2) ∧
    extract_reviews "start" fetch200 2 = extract_reviews "start" fetch404 2 :=
  ⟨fun _ => rfl,
   extract_reviews_status_independent fetch200 fetch404 (fun _ => rfl) "start" 2⟩

end Yelp
